import Mathlib

/-!
Shallow embedding of the cloudpdf repository's core pipeline:
`generatePDFFromPages` (src/src/App.tsx) and the `PDFGenerator` utility
(src/src/utils/pdfGenerator.ts).  Pure string helpers model the JavaScript
primitives the source relies on (`String.prototype.replace` with a string
pattern and its `$`-substitution patterns, `String.prototype.includes`,
DOM text-node HTML serialization); the page loop of `generatePDFFromPages`
is modelled as a function over an oracle for the external `html2canvas`
renderer, returning both an event trace (surface lifecycle, capture,
packaging) and the run's outcome.
-/

namespace CloudPDF

/-- Dollar sign character, the replacement-pattern escape of JavaScript
`String.prototype.replace`. -/
def dollarChar : Char := '$'

/-- Ampersand character. -/
def ampChar : Char := '&'

/-- Backtick character (code point 96), used in the replacement pattern that
inserts the portion of the string before the match. -/
def backtickChar : Char := Char.ofNat 96

/-- Single-quote character (code point 39), used in the replacement pattern
that inserts the portion of the string after the match. -/
def singleQuoteChar : Char := Char.ofNat 39

/-- Non-breaking-space character (code point 160), which DOM text-node
serialization escapes as an entity. -/
def nbspChar : Char := Char.ofNat 160

/-- Search for the first occurrence of `pat` in a character list; on a hit,
return the characters before the occurrence and the characters after it.
Models the search step of `String.prototype.replace` with a string pattern
(and of `String.prototype.includes`). -/
def findSplit (pat : List Char) : List Char → Option (List Char × List Char)
  | [] => if pat = [] then some ([], []) else none
  | c :: rest =>
    if pat.isPrefixOf (c :: rest) then some ([], (c :: rest).drop pat.length)
    else
      match findSplit pat rest with
      | some (pre, post) => some (c :: pre, post)
      | none => none

/-- Substring test, modelling JavaScript `String.prototype.includes`. -/
def strIncludes (s sub : String) : Bool := (findSplit sub.toList s.toList).isSome

/-- Expansion of the replacement string of JavaScript
`String.prototype.replace`: `$$` inserts a dollar sign, `$&` inserts the
matched substring, a dollar followed by a backtick inserts the portion
before the match, a dollar followed by a single quote inserts the portion
after it; any other character is copied verbatim.  `matched` is the matched
substring, `pre` and `post` the portions around the match. -/
def expandRepl (matched pre post : List Char) : List Char → List Char
  | [] => []
  | [c] => [c]
  | c :: d :: rest =>
    if c = dollarChar then
      if d = dollarChar then dollarChar :: expandRepl matched pre post rest
      else if d = ampChar then matched ++ expandRepl matched pre post rest
      else if d = backtickChar then pre ++ expandRepl matched pre post rest
      else if d = singleQuoteChar then post ++ expandRepl matched pre post rest
      else c :: d :: expandRepl matched pre post (d :: rest).tail
    else c :: expandRepl matched pre post (d :: rest)

/-- JavaScript `s.replace(pat, repl)` with a string pattern `pat`: only the
first occurrence of `pat` is replaced, and the replacement string `repl` is
expanded for `$`-patterns. -/
def jsReplace (s pat repl : String) : String :=
  match findSplit pat.toList s.toList with
  | none => s
  | some (pre, post) =>
    String.mk (pre ++ expandRepl pat.toList pre post repl.toList ++ post)

/-- Replacement of the first occurrence of `pat` by `repl` taken literally
(no `$`-pattern expansion).  This is the substitution the claim describes;
it differs from `jsReplace` exactly on replacements containing `$`. -/
def replaceFirstLiteral (s pat repl : String) : String :=
  match findSplit pat.toList s.toList with
  | none => s
  | some (pre, post) => String.mk (pre ++ repl.toList ++ post)

/-- Serialization of one text character as performed by reading back
`div.innerHTML` after `div.textContent = text` (pdfGenerator.ts
`escapeHtml`): the markup-significant characters are encoded as entities. -/
def escapeChar (c : Char) : List Char :=
  if c = ampChar then "&amp;".toList
  else if c = '<' then "&lt;".toList
  else if c = '>' then "&gt;".toList
  else if c = nbspChar then "&nbsp;".toList
  else [c]

/-- Serialization of a text-node character list (see `escapeChar`). -/
def escapeList : List Char → List Char
  | [] => []
  | c :: rest => escapeChar c ++ escapeList rest

/-- Model of `PDFGenerator.escapeHtml` (pdfGenerator.ts lines 155-159):
assigning `textContent` and reading `innerHTML` HTML-escapes the text. -/
def escapeHtml (text : String) : String := String.mk (escapeList text.toList)

/-- Placeholder string `{{LOCAL_CONTENT}}` substituted by
`generateWithLocalContent`. -/
def localContentPlaceholder : String := "\x7b\x7bLOCAL_CONTENT\x7d\x7d"

/-- Model of the content-injection step of
`PDFGenerator.generateWithLocalContent` (pdfGenerator.ts lines 136-145):
the fetched local content is HTML-escaped and substituted for the
placeholder via JavaScript `replace`, producing the `processedHTML` string
handed on to `generateFromHTML`. -/
def generateWithLocalContent (htmlTemplate localContent : String) : String :=
  jsReplace htmlTemplate localContentPlaceholder (escapeHtml localContent)

/-- HTTP response as observed by `loadLocalFile`: the `ok` flag, the status
text, the `content-type` and `content-length` headers (absent headers are
`none`), and the body text. -/
structure HttpResponse where
  ok : Bool
  statusText : String
  contentType : Option String
  contentLength : Option String
  body : String
deriving DecidableEq, Repr

/-- Outcome of the external `fetch(url)` call: either the promise rejects
(with some error message) or it resolves to a response. -/
inductive FetchOutcome where
  | rejected (msg : String)
  | resolved (r : HttpResponse)
deriving DecidableEq, Repr

/-- String interpolation of a possibly-null header value: JavaScript
renders `null` as the string "null" inside a template literal. -/
def headerOrNull : Option String → String
  | some s => s
  | none => "null"

/-- Metadata string returned by `loadLocalFile` for a PDF content type. -/
def pdfMetadataString (url : String) (contentLength : Option String) : String :=
  "PDF file loaded from " ++ url ++ " (" ++ headerOrNull contentLength ++ " bytes)"

/-- Body of the `try` block of `PDFGenerator.loadLocalFile` (pdfGenerator.ts
lines 78-92): a rejected fetch propagates its error; a non-ok response
throws `Failed to load ...`; a response whose content type includes
`application/pdf` yields the metadata string; otherwise the body text is
returned. -/
def loadLocalFileInner (url : String) (f : FetchOutcome) : Except String String :=
  match f with
  | .rejected msg => .error msg
  | .resolved r =>
    if !r.ok then .error ("Failed to load " ++ url ++ ": " ++ r.statusText)
    else
      match r.contentType with
      | some ct =>
        if strIncludes ct "application/pdf" then
          .ok (pdfMetadataString url r.contentLength)
        else .ok r.body
      | none => .ok r.body

/-- Model of `PDFGenerator.loadLocalFile` (pdfGenerator.ts lines 77-97): the
`catch` block replaces every error thrown inside the `try` block by
`Could not load file from <url>`. -/
def loadLocalFile (url : String) (f : FetchOutcome) : Except String String :=
  match loadLocalFileInner url f with
  | .ok v => .ok v
  | .error _ => .error ("Could not load file from " ++ url)

/-- Behavior of `loadLocalFile` as claim C10 states it: throws exactly when
the fetch rejects or the response is not ok, always with the message
`Could not load file from <url>`; on success returns the body text, except
that a content type including `application/pdf` yields a metadata string. -/
def loadLocalFileClaimed (url : String) (f : FetchOutcome) : Except String String :=
  match f with
  | .rejected _ => .error ("Could not load file from " ++ url)
  | .resolved r =>
    if !r.ok then .error ("Could not load file from " ++ url)
    else
      match r.contentType with
      | some ct =>
        if strIncludes ct "application/pdf" then
          .ok (pdfMetadataString url r.contentLength)
        else .ok r.body
      | none => .ok r.body

/-- Page orientation of the supported A4 format (pdfGenerator.ts options). -/
inductive Orientation where
  | portrait
  | landscape
deriving DecidableEq, Repr

/-- Capture-request size in CSS pixels passed to `html2canvas`
(pdfGenerator.ts lines 36-38: width 1123 and height 794 for landscape,
width 794 and height 1123 for portrait; the same constants A4-at-96-DPI are
hard-coded in App.tsx `generatePDFFromPages` lines 375-376 for portrait). -/
def captureRequestSize : Orientation → Nat × Nat
  | .landscape => (1123, 794)
  | .portrait => (794, 1123)

/-- Scale factor passed to `html2canvas` by default (pdfGenerator.ts
`defaultOptions.scale`) and hard-coded in App.tsx line 377. -/
def defaultScale : Nat := 2

/-- Pixel size of the canvas `html2canvas` returns: the requested CSS size
multiplied by the requested scale. -/
def capturedCanvasSize (o : Orientation) (scale : Nat) : Nat × Nat :=
  ((captureRequestSize o).1 * scale, (captureRequestSize o).2 * scale)

/-- Physical page size in millimeters used when placing the image
(pdfGenerator.ts lines 54-55; App.tsx line 391 uses 210 and 297). -/
def pageSizeMM : Orientation → Nat × Nat
  | .landscape => (297, 210)
  | .portrait => (210, 297)

/-- Canvas returned by the external `html2canvas` renderer: its pixel
dimensions and its pixel data (the PNG data URL `toDataURL` yields). -/
structure Canvas where
  width : Nat
  height : Nat
  data : String
deriving DecidableEq, Repr

/-- Model of `canvas.toDataURL('image/png', ...)`: the encoded pixel data. -/
def Canvas.toDataURL (c : Canvas) : String := c.data

/-- State of a jsPDF document: the ordered pages, each holding the image
placed on it (`none` for a page nothing was drawn on).  `new jsPDF(...)`
creates a document that already contains one blank page. -/
structure PDFDoc where
  pages : List (Option String)
deriving DecidableEq, Repr

/-- Model of `new jsPDF({orientation: 'portrait', unit: 'mm', format: 'a4'})`
(App.tsx lines 344-348): a fresh document with one blank page. -/
def newJsPDF : PDFDoc := ⟨[none]⟩

/-- Model of `pdf.addPage()`: appends a blank page, which becomes the
current page. -/
def PDFDoc.addPage (d : PDFDoc) : PDFDoc := ⟨d.pages ++ [none]⟩

/-- Model of `pdf.addImage(imgData, 'PNG', 0, 0, 210, 297)` (App.tsx line
391): draws the image full-bleed over the current (last) page.  The source
performs no validation of the image against the page format. -/
def PDFDoc.addImage (d : PDFDoc) (imgData : String) : PDFDoc :=
  ⟨d.pages.dropLast ++ [some imgData]⟩

/-- Model of the assembly step of the page loop (App.tsx lines 383-391):
`if (!isFirstPage) pdf.addPage();` followed by `pdf.addImage(...)`. -/
def appendCaptured (d : PDFDoc) (isFirstPage : Bool) (canvas : Canvas) : PDFDoc :=
  (if isFirstPage then d else d.addPage).addImage canvas.toDataURL

/-- Model of `pdf.output('blob')` and of the bytes `pdf.save` persists: the
serialized form of the document, a deterministic function of its pages. -/
def serializeDoc (d : PDFDoc) : List (Option String) := d.pages

/-- Observable events of one generation run.  The surface events follow the
statements of App.tsx lines 354-396: `document.createElement`, the
`innerHTML` assignment, `document.body.appendChild`, the awaited
`html2canvas` call, and the `finally` block's `document.body.removeChild`.
`settle` is a settle-delay / rendering-complete wait, which the source
never performs; the packaging events carry the serialized bytes of
`pdf.save`, `pdf.output('blob')` and `URL.createObjectURL(blob)`
(App.tsx lines 400-402). -/
inductive Event where
  | createSurface (i : Nat)
  | insertContent (i : Nat)
  | attachSurface (i : Nat)
  | settle (i : Nat)
  | capture (i : Nat)
  | destroySurface (i : Nat)
  | saveFile (bytes : List (Option String))
  | outputBlob (bytes : List (Option String))
  | makeObjectURL (bytes : List (Option String))
deriving DecidableEq, Repr

/-- Test for a surface-creation event. -/
def Event.isCreate : Event → Bool
  | .createSurface _ => true
  | _ => false

/-- Test for a surface-destruction event. -/
def Event.isDestroy : Event → Bool
  | .destroySurface _ => true
  | _ => false

/-- Test for a settle event. -/
def Event.isSettle : Event → Bool
  | .settle _ => true
  | _ => false

/-- Test for the blob-production event `pdf.output('blob')`. -/
def Event.isOutputBlob : Event → Bool
  | .outputBlob _ => true
  | _ => false

/-- Test for any packaging event (save, blob output, object-URL creation). -/
def Event.isPackaging : Event → Bool
  | .saveFile _ => true
  | .outputBlob _ => true
  | .makeObjectURL _ => true
  | _ => false

/-- Events one iteration of the page loop emits for page `i`, on success
and on capture failure alike (the `finally` block destroys the surface on
both paths, and no settle event ever occurs). -/
def pageBlock (i : Nat) : List Event :=
  [.createSurface i, .insertContent i, .attachSurface i, .capture i, .destroySurface i]

/-- Concatenated per-page event blocks for `n` pages starting at index `s`. -/
def blockSeq : Nat → Nat → List Event
  | _, 0 => []
  | s, n + 1 => pageBlock s ++ blockSeq (s + 1) n

/-- Final result returned by `generatePDFFromPages` on success: the blob
and the bytes the returned object URL references. -/
structure GenResult where
  blob : List (Option String)
  url : List (Option String)
deriving DecidableEq, Repr

/-- Renderer oracle: the behavior of the external `html2canvas` on the
`j`-th call of the run, given the page markup placed in the container; it
either resolves to the captured pixel data or rejects with an error
message. -/
def RenderOracle : Type := Nat → String → Except String String

/-- Renderer oracle whose every call succeeds, capturing page `j`'s markup
`s` as pixel data `rend j s`. -/
def okOracle (rend : Nat → String → String) : RenderOracle :=
  fun j s => .ok (rend j s)

/-- Renderer oracle that rejects on call `k` with message `emsg` and
succeeds on every other call. -/
def failAtOracle (rend : Nat → String → String) (k : Nat) (emsg : String) :
    RenderOracle :=
  fun j s => if j = k then .error emsg else .ok (rend j s)

/-- Page loop of `generatePDFFromPages` (App.tsx lines 350-397), carrying
the call index `i`, the document and the `isFirstPage` flag: for each page
the temporary container is created, filled and attached; `html2canvas` is
awaited; on success the captured image is appended to the document; the
`finally` block removes the container on both paths; a capture rejection
aborts the loop. -/
def pageLoop (h2c : RenderOracle) :
    List String → Nat → PDFDoc → Bool → List Event × Except String PDFDoc
  | [], _, doc, _ => ([], .ok doc)
  | pageHTML :: rest, i, doc, isFirstPage =>
    match h2c i pageHTML with
    | .error msg => (pageBlock i, .error msg)
    | .ok data =>
      let res := pageLoop h2c rest (i + 1)
        (appendCaptured doc isFirstPage ⟨794 * 2, 1123 * 2, data⟩) false
      (pageBlock i ++ res.1, res.2)

/-- Model of `generatePDFFromPages` (App.tsx lines 338-408): runs the page
loop on a fresh document; on success saves the file, produces the blob and
creates the object URL from that blob; any error is wrapped by the `catch`
block as `PDF generation failed: <message>`.  Returns the event trace and
the outcome. -/
def generatePDFFromPages (h2c : RenderOracle) (pages : List String) :
    List Event × Except String GenResult :=
  match pageLoop h2c pages 0 newJsPDF true with
  | (t, .error msg) => (t, .error ("PDF generation failed: " ++ msg))
  | (t, .ok doc) =>
    let b := serializeDoc doc
    (t ++ [.saveFile b, .outputBlob b, .makeObjectURL b], .ok ⟨b, b⟩)

/-- Expected page contents for a fully successful run: page `i` holds the
renderer's capture of input fragment `i` (indices starting at `s`). -/
def renderedFrom (rend : Nat → String → String) : Nat → List String → List (Option String)
  | _, [] => []
  | i, pageHTML :: rest => some (rend i pageHTML) :: renderedFrom rend (i + 1) rest

/-- Scope checker for surface lifecycle traces: surfaces must be created in
increasing page order starting at `next`, each created at most once, each
destroyed exactly once before the next is created (so at most one is live
at any time), and no surface may be live at the end of the trace.  The
state is the index of the currently live surface, if any. -/
def scopedChk : Option Nat → Nat → List Event → Bool
  | none, _, [] => true
  | some _, _, [] => false
  | st, next, e :: rest =>
    match st, e with
    | none, .createSurface i => i == next && scopedChk (some i) next rest
    | none, .destroySurface _ => false
    | none, _ => scopedChk none next rest
    | some j, .destroySurface i => i == j && scopedChk none (next + 1) rest
    | some _, .createSurface _ => false
    | some j, _ => scopedChk (some j) next rest

/-- Success test on a run's outcome: `true` exactly when the run returned a
`GenResult` rather than throwing. -/
def runSucceeds (run : List Event × Except String GenResult) : Bool :=
  match run.2 with
  | .ok _ => true
  | .error _ => false

/-! ## Supporting lemmas -/

theorem appendCaptured_false_pages (d : PDFDoc) (c : Canvas) :
    (appendCaptured d false c).pages = d.pages ++ [some c.data] := by
  simp [appendCaptured, PDFDoc.addPage, PDFDoc.addImage, Canvas.toDataURL]

theorem appendCaptured_true_pages (d : PDFDoc) (c : Canvas) :
    (appendCaptured d true c).pages = d.pages.dropLast ++ [some c.data] := by
  simp [appendCaptured, PDFDoc.addImage, Canvas.toDataURL]

theorem blockSeq_succ (s n : Nat) :
    blockSeq s (n + 1) = pageBlock s ++ blockSeq (s + 1) n := rfl

theorem pageLoop_ok (rend : Nat → String → String) :
    ∀ (rest : List String) (i : Nat) (doc : PDFDoc),
      pageLoop (okOracle rend) rest i doc false
        = (blockSeq i rest.length, .ok ⟨doc.pages ++ renderedFrom rend i rest⟩)
  | [], i, doc => by simp [pageLoop, blockSeq, renderedFrom]
  | pageHTML :: rest, i, doc => by
    have ih := pageLoop_ok rend rest (i + 1)
      (appendCaptured doc false ⟨794 * 2, 1123 * 2, rend i pageHTML⟩)
    simp only [pageLoop, okOracle, ih, List.length_cons, blockSeq_succ,
      appendCaptured_false_pages, renderedFrom, List.append_assoc,
      List.singleton_append]

theorem generatePDFFromPages_ok (rend : Nat → String → String)
    (pageHTML : String) (rest : List String) :
    generatePDFFromPages (okOracle rend) (pageHTML :: rest)
      = (blockSeq 0 (rest.length + 1)
          ++ [.saveFile (renderedFrom rend 0 (pageHTML :: rest)),
              .outputBlob (renderedFrom rend 0 (pageHTML :: rest)),
              .makeObjectURL (renderedFrom rend 0 (pageHTML :: rest))],
         .ok ⟨renderedFrom rend 0 (pageHTML :: rest),
              renderedFrom rend 0 (pageHTML :: rest)⟩) := by
  have h1 := pageLoop_ok rend rest 1
    (appendCaptured newJsPDF true ⟨794 * 2, 1123 * 2, rend 0 pageHTML⟩)
  have hpages : (appendCaptured newJsPDF true
      ⟨794 * 2, 1123 * 2, rend 0 pageHTML⟩).pages = [some (rend 0 pageHTML)] := by
    simp [appendCaptured_true_pages, newJsPDF]
  simp only [generatePDFFromPages, pageLoop, okOracle, h1, hpages,
    serializeDoc, renderedFrom, List.singleton_append, blockSeq_succ]

theorem pageLoop_fail (rend : Nat → String → String) (k : Nat) (emsg : String) :
    ∀ (rest : List String) (i : Nat) (doc : PDFDoc) (b : Bool),
      i ≤ k → k < i + rest.length →
      pageLoop (failAtOracle rend k emsg) rest i doc b
        = (blockSeq i (k + 1 - i), .error emsg)
  | [], i, doc, b, hik, hlt => by
    simp only [List.length_nil, Nat.add_zero] at hlt
    omega
  | pageHTML :: rest, i, doc, b, hik, hlt => by
    by_cases hi : i = k
    · subst hi
      have h1 : i + 1 - i = 1 := by omega
      simp [pageLoop, failAtOracle, h1, blockSeq]
    · have hik' : i + 1 ≤ k := by omega
      have hlt' : k < (i + 1) + rest.length := by
        simp only [List.length_cons] at hlt; omega
      have ih := pageLoop_fail rend k emsg rest (i + 1)
        (appendCaptured doc b ⟨794 * 2, 1123 * 2, rend i pageHTML⟩) false hik' hlt'
      have h2 : k + 1 - i = (k - i) + 1 := by omega
      have h3 : k + 1 - (i + 1) = k - i := by omega
      simp only [pageLoop, failAtOracle, if_neg hi, ih, h2, h3, blockSeq_succ]

theorem pageLoop_trace_shape (h2c : RenderOracle) :
    ∀ (rest : List String) (i : Nat) (doc : PDFDoc) (b : Bool),
      ∃ m, (pageLoop h2c rest i doc b).1 = blockSeq i m
  | [], i, doc, b => ⟨0, rfl⟩
  | pageHTML :: rest, i, doc, b => by
    cases hc : h2c i pageHTML with
    | error msg =>
      refine ⟨1, ?_⟩
      simp [pageLoop, hc, blockSeq]
    | ok data =>
      obtain ⟨m, hm⟩ := pageLoop_trace_shape h2c rest (i + 1)
        (appendCaptured doc b ⟨794 * 2, 1123 * 2, data⟩) false
      refine ⟨m + 1, ?_⟩
      simp [pageLoop, hc, hm, blockSeq_succ]

theorem scopedChk_pageBlock (s : Nat) (t : List Event) :
    scopedChk none s (pageBlock s ++ t) = scopedChk none (s + 1) t := by
  simp [pageBlock, scopedChk]

theorem scopedChk_blockSeq (t : List Event) :
    ∀ (n s : Nat), scopedChk none s (blockSeq s n ++ t) = scopedChk none (s + n) t
  | 0, s => by simp [blockSeq]
  | n + 1, s => by
    have ih := scopedChk_blockSeq t n (s + 1)
    have harith : s + 1 + n = s + (n + 1) := by omega
    rw [harith] at ih
    simp only [blockSeq_succ, List.append_assoc, scopedChk_pageBlock, ih]

theorem scopedChk_packaging (next : Nat) (b : List (Option String)) :
    scopedChk none next [Event.saveFile b, Event.outputBlob b, Event.makeObjectURL b]
      = true := rfl

theorem pageBlock_all (p : Event → Bool) (s : Nat) :
    (pageBlock s).all p
      = (p (.createSurface s) && p (.insertContent s) && p (.attachSurface s)
          && p (.capture s) && p (.destroySurface s)) := by
  simp [pageBlock, Bool.and_assoc]

theorem blockSeq_no_settle : ∀ (n s : Nat),
    ((blockSeq s n).all fun e => !e.isSettle) = true
  | 0, s => rfl
  | n + 1, s => by
    have ih := blockSeq_no_settle n (s + 1)
    rw [blockSeq_succ, List.all_append, ih, Bool.and_true]
    rfl

theorem blockSeq_countP_isCreate : ∀ (n s : Nat),
    (blockSeq s n).countP Event.isCreate = n
  | 0, s => rfl
  | n + 1, s => by
    have ih := blockSeq_countP_isCreate n (s + 1)
    simp [blockSeq_succ, List.countP_append, ih, pageBlock,
      List.countP_cons, Event.isCreate]

theorem blockSeq_countP_isDestroy : ∀ (n s : Nat),
    (blockSeq s n).countP Event.isDestroy = n
  | 0, s => rfl
  | n + 1, s => by
    have ih := blockSeq_countP_isDestroy n (s + 1)
    simp [blockSeq_succ, List.countP_append, ih, pageBlock,
      List.countP_cons, Event.isDestroy]

theorem blockSeq_countP_isPackaging : ∀ (n s : Nat),
    (blockSeq s n).countP Event.isPackaging = 0
  | 0, s => rfl
  | n + 1, s => by
    have ih := blockSeq_countP_isPackaging n (s + 1)
    simp [blockSeq_succ, List.countP_append, ih, pageBlock,
      List.countP_cons, Event.isPackaging]

theorem blockSeq_countP_isOutputBlob : ∀ (n s : Nat),
    (blockSeq s n).countP Event.isOutputBlob = 0
  | 0, s => rfl
  | n + 1, s => by
    have ih := blockSeq_countP_isOutputBlob n (s + 1)
    simp [blockSeq_succ, List.countP_append, ih, pageBlock,
      List.countP_cons, Event.isOutputBlob]

theorem blockSeq_ends_with_destroy : ∀ (n s : Nat),
    ∃ t, blockSeq s (n + 1) = t ++ [Event.destroySurface (s + n)]
  | 0, s => by
    refine ⟨[.createSurface s, .insertContent s, .attachSurface s, .capture s], ?_⟩
    simp [blockSeq, pageBlock]
  | n + 1, s => by
    obtain ⟨t, ht⟩ := blockSeq_ends_with_destroy n (s + 1)
    have harith : s + 1 + n = s + (n + 1) := by omega
    rw [harith] at ht
    exact ⟨pageBlock s ++ t, by rw [blockSeq_succ, ht, List.append_assoc]⟩

theorem expandRepl_no_dollar (matched pre post : List Char) :
    ∀ l : List Char, (l.all fun c => !(c == dollarChar)) = true →
      expandRepl matched pre post l = l
  | [], _ => rfl
  | [_], _ => rfl
  | c :: d :: rest, h => by
    rw [List.all_cons, Bool.and_eq_true] at h
    obtain ⟨h1, h2⟩ := h
    have hc : ¬ c = dollarChar := by simpa using h1
    simp only [expandRepl, if_neg hc]
    exact congrArg (c :: ·) (expandRepl_no_dollar matched pre post (d :: rest) h2)

theorem escapeChar_no_dollar (c : Char) (hc : ¬ c = dollarChar) :
    ((escapeChar c).all fun x => !(x == dollarChar)) = true := by
  unfold escapeChar
  split_ifs
  · decide
  · decide
  · decide
  · decide
  · simp only [List.all_cons, List.all_nil, Bool.and_true, Bool.not_eq_true',
      beq_eq_false_iff_ne, ne_eq]
    exact hc

theorem escapeList_no_dollar :
    ∀ l : List Char, (l.all fun c => !(c == dollarChar)) = true →
      ((escapeList l).all fun c => !(c == dollarChar)) = true
  | [], _ => rfl
  | c :: rest, h => by
    rw [List.all_cons, Bool.and_eq_true] at h
    obtain ⟨h1, h2⟩ := h
    have hc : ¬ c = dollarChar := by simpa using h1
    simp only [escapeList, List.all_append, escapeChar_no_dollar c hc,
      escapeList_no_dollar rest h2, Bool.and_self]

theorem escapeChar_no_lt (c : Char) :
    ((escapeChar c).all fun x => !(x == '<')) = true := by
  unfold escapeChar
  split_ifs with h1 h2 h3 h4
  · decide
  · decide
  · decide
  · decide
  · simp only [List.all_cons, List.all_nil, Bool.and_true, Bool.not_eq_true',
      beq_eq_false_iff_ne, ne_eq]
    exact h2

theorem escapeList_no_lt :
    ∀ l : List Char, ((escapeList l).all fun c => !(c == '<')) = true
  | [] => rfl
  | c :: rest => by
    simp only [escapeList, List.all_append, escapeChar_no_lt c,
      escapeList_no_lt rest, Bool.and_self]

theorem renderedFrom_length (rend : Nat → String → String) :
    ∀ (l : List String) (i : Nat), (renderedFrom rend i l).length = l.length
  | [], _ => rfl
  | _ :: rest, i => by
    simp [renderedFrom, renderedFrom_length rend rest (i + 1)]

theorem renderedFrom_getElem? (rend : Nat → String → String) :
    ∀ (l : List String) (i j : Nat),
      (renderedFrom rend i l)[j]? = (l[j]?).map fun s => some (rend (i + j) s)
  | [], i, j => by simp [renderedFrom]
  | pageHTML :: rest, i, 0 => by simp [renderedFrom]
  | pageHTML :: rest, i, j + 1 => by
    have ih := renderedFrom_getElem? rend rest (i + 1) j
    have harith : i + 1 + j = i + (j + 1) := by omega
    simp only [renderedFrom, List.getElem?_cons_succ, ih, harith]

/-! ## Claim theorems -/

/-- C1: for every non-empty list of page-content strings and every behavior
of the external renderer that succeeds on each call, `generatePDFFromPages`
succeeds and produces a document with exactly as many pages as inputs, and
page `i` holds the rendering of input fragment `i`: pages appear in exactly
the input order, with no page skipped and no implicit blank pages added. -/
theorem claim1_pages_in_order (rend : Nat → String → String) (pages : List String)
    (hne : pages ≠ []) :
    ∃ res, (generatePDFFromPages (okOracle rend) pages).2 = .ok res ∧
      res.blob.length = pages.length ∧
      ∀ i : Nat, res.blob[i]? = (pages[i]?).map fun s => some (rend i s) := by
  cases pages with
  | nil => exact absurd rfl hne
  | cons pageHTML rest =>
    refine ⟨⟨renderedFrom rend 0 (pageHTML :: rest),
             renderedFrom rend 0 (pageHTML :: rest)⟩, ?_, ?_, ?_⟩
    · rw [generatePDFFromPages_ok]
    · exact renderedFrom_length rend _ 0
    · intro i
      have h := renderedFrom_getElem? rend (pageHTML :: rest) 0 i
      simpa using h

/-- Witness for C1 at the concrete input `["a", "b", "c"]` with the identity
renderer: three pages, in order. -/
theorem claim1_pages_in_order_witness :
    (["a", "b", "c"] : List String) ≠ [] ∧
    ∃ res, (generatePDFFromPages (okOracle fun _ s => s) ["a", "b", "c"]).2 = .ok res ∧
      res.blob.length = (["a", "b", "c"] : List String).length ∧
      ∀ i : Nat, res.blob[i]?
        = ((["a", "b", "c"] : List String)[i]?).map fun s => some s :=
  ⟨by decide, claim1_pages_in_order (fun _ s => s) ["a", "b", "c"] (by decide)⟩

/-- C2: for every renderer behavior (success or failure on any call) and
every input list, the run's surface trace is well scoped: the temporary
container of page `i` is created exactly once and destroyed exactly once,
the container of page `i` is destroyed before the container of page `i+1`
is created, at most one container is live at any time, and none is live
when the run ends — on every exit path, including render failure. -/
theorem claim2_surface_lifecycle (h2c : RenderOracle) (pages : List String) :
    scopedChk none 0 (generatePDFFromPages h2c pages).1 = true := by
  obtain ⟨m, hm⟩ := pageLoop_trace_shape h2c pages 0 newJsPDF true
  rcases hp : pageLoop h2c pages 0 newJsPDF true with ⟨t, r⟩
  rw [hp] at hm
  have ht : t = blockSeq 0 m := hm
  cases r with
  | error msg =>
    simp only [generatePDFFromPages, hp, ht]
    have h := scopedChk_blockSeq [] m 0
    simpa using h
  | ok doc =>
    simp only [generatePDFFromPages, hp, ht]
    rw [scopedChk_blockSeq]
    exact scopedChk_packaging _ _

/-- C3: if the renderer fails on page `k` of a run over `pages` (with
`k < pages.length`), the whole run fails with the wrapped error and no
`GenerationResult` is produced (no packaging event occurs); the numbers of
surface creations and destructions are both `k + 1` (balanced, no leak);
and the trace ends with the destruction of page `k`'s surface, so the
in-progress page's surface is released before the error surfaces. -/
theorem claim3_all_or_nothing (rend : Nat → String → String) (k : Nat)
    (emsg : String) (pages : List String) (hk : k < pages.length) :
    generatePDFFromPages (failAtOracle rend k emsg) pages
        = (blockSeq 0 (k + 1), .error ("PDF generation failed: " ++ emsg)) ∧
      (generatePDFFromPages (failAtOracle rend k emsg) pages).1.countP
          Event.isCreate = k + 1 ∧
      (generatePDFFromPages (failAtOracle rend k emsg) pages).1.countP
          Event.isDestroy = k + 1 ∧
      (generatePDFFromPages (failAtOracle rend k emsg) pages).1.countP
          Event.isPackaging = 0 ∧
      ∃ t, (generatePDFFromPages (failAtOracle rend k emsg) pages).1
          = t ++ [Event.destroySurface k] := by
  have hl := pageLoop_fail rend k emsg pages 0 newJsPDF true (Nat.zero_le k)
    (by omega)
  simp only [Nat.sub_zero] at hl
  have hrun : generatePDFFromPages (failAtOracle rend k emsg) pages
      = (blockSeq 0 (k + 1), .error ("PDF generation failed: " ++ emsg)) := by
    simp only [generatePDFFromPages, hl]
  refine ⟨hrun, ?_, ?_, ?_, ?_⟩
  · rw [hrun]
    exact blockSeq_countP_isCreate (k + 1) 0
  · rw [hrun]
    exact blockSeq_countP_isDestroy (k + 1) 0
  · rw [hrun]
    exact blockSeq_countP_isPackaging (k + 1) 0
  · rw [hrun]
    have h := blockSeq_ends_with_destroy k 0
    simpa using h

/-- Witness for C3 at the concrete input `["a", "b", "c"]` with the
renderer failing on page 1. -/
theorem claim3_all_or_nothing_witness :
    1 < (["a", "b", "c"] : List String).length ∧
    (generatePDFFromPages (failAtOracle (fun _ s => s) 1 "boom") ["a", "b", "c"]
        = (blockSeq 0 2, .error ("PDF generation failed: " ++ "boom")) ∧
      (generatePDFFromPages (failAtOracle (fun _ s => s) 1 "boom")
          ["a", "b", "c"]).1.countP Event.isCreate = 2 ∧
      (generatePDFFromPages (failAtOracle (fun _ s => s) 1 "boom")
          ["a", "b", "c"]).1.countP Event.isDestroy = 2 ∧
      (generatePDFFromPages (failAtOracle (fun _ s => s) 1 "boom")
          ["a", "b", "c"]).1.countP Event.isPackaging = 0 ∧
      ∃ t, (generatePDFFromPages (failAtOracle (fun _ s => s) 1 "boom")
          ["a", "b", "c"]).1 = t ++ [Event.destroySurface 1]) :=
  ⟨by decide, claim3_all_or_nothing (fun _ s => s) 1 "boom" ["a", "b", "c"]
    (by decide)⟩

/-- C4 counterexample: the claim asserts that the empty input list makes
generation fail with a rejection error and no result; in the code the page
loop simply does not run, and the run succeeds, serializing the single
implicit blank page the jsPDF constructor created and returning a
`GenResult` for it. -/
theorem claim4_counterexample :
    generatePDFFromPages (okOracle fun _ s => s) []
      = ([.saveFile [none], .outputBlob [none], .makeObjectURL [none]],
         .ok ⟨[none], [none]⟩) := rfl

/-- C4 amended: for the empty input list, generation does not fail:
regardless of the renderer's behavior the run succeeds and returns a
`GenerationResult` whose document consists of the single implicit blank
initial page; a zero-input run is silently serialized into an output
file rather than rejected. -/
theorem claim4_amended (h2c : RenderOracle) :
    generatePDFFromPages h2c []
      = ([.saveFile [none], .outputBlob [none], .makeObjectURL [none]],
         .ok ⟨[none], [none]⟩) := rfl

/-- C5: on a fully successful run the document is serialized into a blob
exactly once (`pdf.output('blob')` occurs exactly once in the trace), the
save action persists the same bytes, and the returned object URL references
the very blob returned in the result, so saved bytes, blob bytes and
referenced bytes are byte-for-byte identical. -/
theorem claim5_single_serialization (rend : Nat → String → String)
    (pages : List String) :
    ∃ b, generatePDFFromPages (okOracle rend) pages
        = (blockSeq 0 pages.length
            ++ [Event.saveFile b, Event.outputBlob b, Event.makeObjectURL b],
           .ok ⟨b, b⟩) ∧
      (generatePDFFromPages (okOracle rend) pages).1.countP
          Event.isOutputBlob = 1 := by
  cases pages with
  | nil =>
    exact ⟨[none], rfl, rfl⟩
  | cons pageHTML rest =>
    refine ⟨renderedFrom rend 0 (pageHTML :: rest), ?_, ?_⟩
    · simpa using generatePDFFromPages_ok rend pageHTML rest
    · rw [generatePDFFromPages_ok]
      simp [List.countP_append, blockSeq_countP_isOutputBlob,
        List.countP_cons, Event.isOutputBlob]

/-- C6 counterexample: the claim asserts that an appended image whose
aspect ratio does not match the page format makes appending fail with an
assembly error.  The capture request of the code yields an image of exactly
1588 by 2246 pixels; its aspect ratio differs from the A4 page's physical
210 by 297 ratio (the cross products differ), yet the run appends it and
succeeds — the assembler performs no validation at all. -/
theorem claim6_counterexample :
    capturedCanvasSize Orientation.portrait defaultScale = (1588, 2246) ∧
    pageSizeMM Orientation.portrait = (210, 297) ∧
    (1588 : Nat) * 297 ≠ 2246 * 210 ∧
    (generatePDFFromPages (okOracle fun _ _ => "px") ["<p/>"]).2
      = .ok ⟨[some "px"], [some "px"]⟩ :=
  ⟨rfl, rfl, by decide, rfl⟩

/-- C6 amended: the assembler performs no aspect-ratio validation: the
captured image is placed unconditionally, stretched to the 210 by 297 page;
whenever every render call succeeds the whole run succeeds, whatever the
captured image's aspect ratio — no assembly failure path exists. -/
theorem claim6_amended (rend : Nat → String → String) (pages : List String) :
    runSucceeds (generatePDFFromPages (okOracle rend) pages) = true := by
  cases pages with
  | nil => rfl
  | cons pageHTML rest =>
    rw [runSucceeds, generatePDFFromPages_ok]

/-- C7 counterexample: the claim's final clause asserts that the captured
image's aspect ratio equals the page's physical aspect ratio; in fact
1588 / 2246 and 210 / 297 are distinct rationals (the 96-DPI reference
size 794 by 1123 is a rounding of A4's physical size). -/
theorem claim7_counterexample :
    captureRequestSize Orientation.portrait = (794, 1123) ∧
    capturedCanvasSize Orientation.portrait defaultScale = (1588, 2246) ∧
    pageSizeMM Orientation.portrait = (210, 297) ∧
    ¬ (((capturedCanvasSize Orientation.portrait defaultScale).1 : ℚ)
          / ((capturedCanvasSize Orientation.portrait defaultScale).2 : ℚ)
        = ((pageSizeMM Orientation.portrait).1 : ℚ)
          / ((pageSizeMM Orientation.portrait).2 : ℚ)) := by
  refine ⟨rfl, rfl, rfl, ?_⟩
  norm_num [capturedCanvasSize, captureRequestSize, pageSizeMM, defaultScale]

/-- C7 amended: the capture request is 794 by 1123 at scale 2 for A4
portrait and 1123 by 794 at scale 2 for landscape, so the captured pixel
size is an exact 2-times integer multiple of the 96-DPI reference size;
the image's aspect ratio therefore equals the 96-DPI reference ratio and
matches the page's physical aspect ratio to within 1/1000, though not
exactly. -/
theorem claim7_amended :
    capturedCanvasSize Orientation.portrait defaultScale = (794 * 2, 1123 * 2) ∧
    capturedCanvasSize Orientation.landscape defaultScale = (1123 * 2, 794 * 2) ∧
    |((capturedCanvasSize Orientation.portrait defaultScale).1 : ℚ)
          / ((capturedCanvasSize Orientation.portrait defaultScale).2 : ℚ)
        - ((pageSizeMM Orientation.portrait).1 : ℚ)
          / ((pageSizeMM Orientation.portrait).2 : ℚ)| < 1 / 1000 ∧
    |((capturedCanvasSize Orientation.landscape defaultScale).1 : ℚ)
          / ((capturedCanvasSize Orientation.landscape defaultScale).2 : ℚ)
        - ((pageSizeMM Orientation.landscape).1 : ℚ)
          / ((pageSizeMM Orientation.landscape).2 : ℚ)| < 1 / 1000 := by
  refine ⟨rfl, rfl, ?_, ?_⟩ <;>
    norm_num [capturedCanvasSize, captureRequestSize, pageSizeMM, defaultScale,
      abs_lt]

/-- C8 counterexample: the claim asserts a settle step occurs between
inserting the markup into the surface and capturing it; in the concrete
single-page run the trace shows the capture event immediately after the
insert and attach events, and no settle event occurs anywhere. -/
theorem claim8_counterexample :
    (generatePDFFromPages (okOracle fun _ _ => "px") ["<p/>"]).1
      = [.createSurface 0, .insertContent 0, .attachSurface 0, .capture 0,
         .destroySurface 0, .saveFile [some "px"], .outputBlob [some "px"],
         .makeObjectURL [some "px"]] ∧
    ((generatePDFFromPages (okOracle fun _ _ => "px") ["<p/>"]).1.all
        fun e => !e.isSettle) = true :=
  ⟨rfl, rfl⟩

/-- C8 amended: no settle step ever occurs: for every renderer behavior and
input list the generation trace contains no settle event at all — the
capture call is issued immediately after the markup is inserted and the
surface attached, with no delay or rendering-complete wait in between. -/
theorem claim8_amended (h2c : RenderOracle) (pages : List String) :
    ((generatePDFFromPages h2c pages).1.all fun e => !e.isSettle) = true := by
  obtain ⟨m, hm⟩ := pageLoop_trace_shape h2c pages 0 newJsPDF true
  rcases hp : pageLoop h2c pages 0 newJsPDF true with ⟨t, r⟩
  rw [hp] at hm
  have ht : t = blockSeq 0 m := hm
  cases r with
  | error msg =>
    simp only [generatePDFFromPages, hp, ht]
    exact blockSeq_no_settle m 0
  | ok doc =>
    simp only [generatePDFFromPages, hp, ht]
    rw [List.all_append, blockSeq_no_settle m 0]
    rfl

/-- C9 counterexample: the claim asserts the fetched content is rendered
literally after HTML-escaping; but JavaScript replacement-pattern
expansion applies to the substituted text, so content `$$` is inserted as
a single `$` (not the literal escaped text), and content `$&` re-inserts
the placeholder itself. -/
theorem claim9_counterexample :
    generateWithLocalContent "a\x7b\x7bLOCAL_CONTENT\x7d\x7db" "$$" = "a$b" ∧
    replaceFirstLiteral "a\x7b\x7bLOCAL_CONTENT\x7d\x7db" localContentPlaceholder
        (escapeHtml "$$") = "a$$b" ∧
    ("a$b" : String) ≠ "a$$b" ∧
    generateWithLocalContent "a\x7b\x7bLOCAL_CONTENT\x7d\x7db" "$&"
      = "a\x7b\x7bLOCAL_CONTENT\x7d\x7damp;b" := by
  refine ⟨rfl, rfl, by decide, rfl⟩

/-- C9 amended: `generateWithLocalContent` HTML-escapes the fetched content
and substitutes it for the first occurrence of the placeholder using
JavaScript string-replace semantics, which additionally expand `$`-escape
sequences inside the substituted text; for fetched content containing no
`$` character the substitution is literal (equal to replacing the first
placeholder occurrence by the escaped content verbatim), and the escaped
content contains no `<`, so it cannot inject markup. -/
theorem claim9_amended (htmlTemplate localContent : String)
    (h : (localContent.toList.all fun c => !(c == dollarChar)) = true) :
    generateWithLocalContent htmlTemplate localContent
        = replaceFirstLiteral htmlTemplate localContentPlaceholder
            (escapeHtml localContent) ∧
      ((escapeHtml localContent).toList.all fun c => !(c == '<')) = true := by
  constructor
  · unfold generateWithLocalContent jsReplace replaceFirstLiteral
    cases hs : findSplit localContentPlaceholder.toList htmlTemplate.toList with
    | none => rfl
    | some pr =>
      rcases pr with ⟨pre, post⟩
      have hexp : expandRepl localContentPlaceholder.toList pre post
          (escapeHtml localContent).toList = (escapeHtml localContent).toList :=
        expandRepl_no_dollar _ _ _ _ (escapeList_no_dollar _ h)
      exact congrArg (fun l => String.mk (pre ++ l ++ post)) hexp
  · exact escapeList_no_lt _

/-- Witness for C9 amended at a dollar-free fetched content containing
markup-significant characters. -/
theorem claim9_amended_witness :
    (("<b>&hi".toList.all fun c => !(c == dollarChar)) = true) ∧
    (generateWithLocalContent "x\x7b\x7bLOCAL_CONTENT\x7d\x7dy" "<b>&hi"
        = replaceFirstLiteral "x\x7b\x7bLOCAL_CONTENT\x7d\x7dy"
            localContentPlaceholder (escapeHtml "<b>&hi") ∧
      ((escapeHtml "<b>&hi").toList.all fun c => !(c == '<')) = true) :=
  ⟨by decide, claim9_amended "x\x7b\x7bLOCAL_CONTENT\x7d\x7dy" "<b>&hi" (by decide)⟩

/-- C10: `loadLocalFile` equals its claimed behavior: it throws exactly
when the fetch rejects or the response status is not ok, always with the
message `Could not load file from <url>` (the underlying cause is never
propagated); on success it returns the response body text, except that a
content type including `application/pdf` yields a metadata description
string instead of the file's contents. -/
theorem claim10_loadLocalFile (url : String) (f : FetchOutcome) :
    loadLocalFile url f = loadLocalFileClaimed url f := by
  cases f with
  | rejected msg => rfl
  | resolved r =>
    rcases r with ⟨ok, statusText, contentType, contentLength, body⟩
    cases ok with
    | false => rfl
    | true =>
      cases contentType with
      | none => rfl
      | some ct =>
        by_cases hct : strIncludes ct "application/pdf" = true
        · simp [loadLocalFile, loadLocalFileInner, loadLocalFileClaimed, hct]
        · simp [loadLocalFile, loadLocalFileInner, loadLocalFileClaimed, hct]

end CloudPDF
